import Mathlib

/-!
Shallow embedding of the editor-command crate (src/lib.rs): a builder that
resolves an editor command string from prioritized sources and assembles a
process invocation, appending registered paths as trailing arguments.

Effects are made explicit: the process environment is passed as an explicit
value to every operation that could read it. The environment variables
VISUAL and EDITOR are the only ones the code consults, so the environment is
modelled as a pair of optional strings.
-/

namespace EditorCommand

/-- The single-quote character (codepoint 39), written via its codepoint. -/
def squoteChar : Char := Char.ofNat 39

/-- The double-quote character (codepoint 34), written via its codepoint. -/
def dquoteChar : Char := Char.ofNat 34

/-- Modelled from the spec: the error type of the external shellish-parse
tokenizer crate (not part of this repository). The spec requires detection of
dangling/unterminated quotes, whose diagnostic message is "dangling string". -/
inductive ShellishParseError where
  | danglingString
  deriving DecidableEq, Repr

/-- Modelled from the spec: the display message of the tokenizer diagnostic
(the spec's example: the message for an unterminated quote is
"dangling string"). -/
def ShellishParseError.message : ShellishParseError → String
  | .danglingString => "dangling string"

/-- Modelled from the spec: worker for the shell-like tokenizer. State:
remaining characters, the currently open quote character (none when outside
quotes), whether a word is in progress, the accumulator for the current word,
and the tokens produced so far. Unquoted ASCII whitespace separates tokens;
matching single or double quotes enclose literal content (which may contain
the other quote character or whitespace); an unterminated quote fails. -/
def parseAux : List Char → Option Char → Bool → String → List String →
    Except ShellishParseError (List String)
  | [], some _, _, _, _ => .error .danglingString
  | [], none, inWord, cur, acc => .ok (if inWord then acc ++ [cur] else acc)
  | c :: rest, some q, _, cur, acc =>
    if c = q then
      parseAux rest none true cur acc
    else
      parseAux rest (some q) true (cur.push c) acc
  | c :: rest, none, inWord, cur, acc =>
    if c = squoteChar ∨ c = dquoteChar then
      parseAux rest (some c) true cur acc
    else if c.isWhitespace then
      if inWord then
        parseAux rest none false "" (acc ++ [cur])
      else
        parseAux rest none false "" acc
    else
      parseAux rest none true (cur.push c) acc

/-- Modelled from the spec: the external shellish-parse tokenizer with default
options, per the contract in the spec (sections 4.2 and 6): plain words split
on unquoted ASCII whitespace, single- and double-quoted groups taken
literally, unterminated quote reported as a dangling-string error. -/
def shellishParse (s : String) : Except ShellishParseError (List String) :=
  parseAux s.toList none false "" []

/-- The process environment, restricted to the two variables the code reads:
VISUAL (primary) and EDITOR (secondary). A value of none models an unset (or
non-unicode, hence ignored) variable. -/
structure Env where
  visual : Option String
  editor : Option String
  deriving DecidableEq, Repr

/-- The builder state of src/lib.rs lines 108-115: the command selected so far
(populated by the first source that offers a value, unchanged afterwards) and
the registered paths in registration order. -/
structure EditorBuilder where
  command : Option String
  paths : List String
  deriving DecidableEq, Repr

/-- EditorBuilder::new (src/lib.rs lines 120-122): the default state, no
command and no paths. -/
def EditorBuilder.new : EditorBuilder :=
  { command := none, paths := [] }

/-- EditorBuilder::source (src/lib.rs lines 148-151):
self.command = self.command.or(source). -/
def EditorBuilder.source (b : EditorBuilder) (src : Option String) : EditorBuilder :=
  { b with command := b.command.or src }

/-- EditorBuilder::environment (src/lib.rs lines 156-163): offer the value of
VISUAL, then the value of EDITOR, both read from the environment in effect at
the moment of this call (passed here explicitly as env). -/
def EditorBuilder.environment (b : EditorBuilder) (env : Env) : EditorBuilder :=
  { b with command := (b.command.or env.visual).or env.editor }

/-- EditorBuilder::path (src/lib.rs lines 172-175): append one path to the
list of registered paths. -/
def EditorBuilder.path (b : EditorBuilder) (p : String) : EditorBuilder :=
  { b with paths := b.paths ++ [p] }

/-- The error enum EditorBuilderError (src/lib.rs lines 207-216). -/
inductive EditorBuilderError where
  | noCommand
  | emptyCommand
  | parseError (cause : ShellishParseError)
  deriving DecidableEq, Repr

/-- The Display implementation for EditorBuilderError (src/lib.rs lines
218-233). -/
def EditorBuilderError.display : EditorBuilderError → String
  | .noCommand => "Edit command not defined in any of the listed sources"
  | .emptyCommand => "Editor command is empty"
  | .parseError cause => "Invalid editor command: " ++ cause.message

/-- The resolved invocation: std::process::Command as observed through
get_program and get_args (a program name and an argument list). -/
structure Command where
  program : String
  args : List String
  deriving DecidableEq, Repr

/-- EditorBuilder::build (src/lib.rs lines 180-202). The parameter amb is the
ambient process environment at assembly time; the source performs no
environment read in build, so amb is never consulted. NoCommand if no source
was selected, otherwise parse the selected string (ParseError on tokenizer
failure), take the first token as the program (EmptyCommand when there are no
tokens) and the remaining tokens followed by the registered paths as the
arguments. -/
def EditorBuilder.build (b : EditorBuilder) (_amb : Env) : Except EditorBuilderError Command :=
  match b.command with
  | none => .error .noCommand
  | some commandStr =>
    match shellishParse commandStr with
    | .error e => .error (.parseError e)
    | .ok tokens =>
      match tokens with
      | [] => .error .emptyCommand
      | program :: args => .ok { program := program, args := args ++ b.paths }

/-- EditorBuilder::edit_file (src/lib.rs lines 135-142):
Self::new().environment().path(path).build(). The environment at the time of
the environment() call and the ambient environment at build time are passed
explicitly. -/
def EditorBuilder.edit_file (env : Env) (p : String) (amb : Env) :
    Except EditorBuilderError Command :=
  ((EditorBuilder.new.environment env).path p).build amb

/-- One command-source registration call on the builder: either a source()
call carrying an optional static candidate, or an environment() call; the
environment in effect at the moment of each call is supplied when the call is
run. -/
inductive OfferCall where
  | src (cand : Option String)
  | env
  deriving DecidableEq, Repr

/-- The candidates a call offers, in order: a source() call offers its one
candidate; an environment() call offers VISUAL then EDITOR from the
environment in effect at that moment. -/
def OfferCall.candidates : OfferCall → Env → List (Option String)
  | .src c, _ => [c]
  | .env, e => [e.visual, e.editor]

/-- Run a sequence of registration calls on a builder; each call is paired
with the environment in effect at the moment it runs. -/
def runCalls : EditorBuilder → List (OfferCall × Env) → EditorBuilder
  | b, [] => b
  | b, (.src c, _) :: rest => runCalls (b.source c) rest
  | b, (.env, e) :: rest => runCalls (b.environment e) rest

/-- The flattened ordered sequence of candidates offered by a sequence of
calls. -/
def offeredCandidates : List (OfferCall × Env) → List (Option String)
  | [] => []
  | (c, e) :: rest => c.candidates e ++ offeredCandidates rest

/-- Offer a list of candidates one by one through source(). -/
def offerAll : EditorBuilder → List (Option String) → EditorBuilder
  | b, [] => b
  | b, c :: rest => offerAll (b.source c) rest

/-- Two builders with the same fields are equal. -/
theorem EditorBuilder.ext_eq (b₁ b₂ : EditorBuilder) (hc : b₁.command = b₂.command)
    (hp : b₁.paths = b₂.paths) : b₁ = b₂ := by
  cases b₁
  cases b₂
  simp only [EditorBuilder.mk.injEq]
  exact ⟨hc, hp⟩

/-- offerAll never touches the path list. -/
theorem offerAll_paths (cands : List (Option String)) (b : EditorBuilder) :
    (offerAll b cands).paths = b.paths := by
  induction cands generalizing b with
  | nil => rfl
  | cons c rest ih => exact ih (b.source c)

/-- offerAll folds the candidates over Option.or, starting from the already
selected command. -/
theorem offerAll_command (cands : List (Option String)) (b : EditorBuilder) :
    (offerAll b cands).command = cands.foldl Option.or b.command := by
  induction cands generalizing b with
  | nil => rfl
  | cons c rest ih => exact ih (b.source c)

/-- offerAll over an appended list is sequential composition. -/
theorem offerAll_append (l₁ l₂ : List (Option String)) (b : EditorBuilder) :
    offerAll b (l₁ ++ l₂) = offerAll (offerAll b l₁) l₂ := by
  induction l₁ generalizing b with
  | nil => rfl
  | cons c rest ih => exact ih (b.source c)

/-- An environment() call behaves as two source() calls: VISUAL then EDITOR. -/
theorem environment_eq_sources (b : EditorBuilder) (e : Env) :
    b.environment e = (b.source e.visual).source e.editor := rfl

/-- Running registration calls equals offering the flattened candidate list. -/
theorem runCalls_eq_offerAll (calls : List (OfferCall × Env)) (b : EditorBuilder) :
    runCalls b calls = offerAll b (offeredCandidates calls) := by
  induction calls generalizing b with
  | nil => rfl
  | cons ce rest ih =>
    obtain ⟨c, e⟩ := ce
    cases c with
    | src cand =>
      show runCalls (b.source cand) rest = offerAll b ([cand] ++ offeredCandidates rest)
      rw [offerAll_append]
      exact ih (b.source cand)
    | env =>
      show runCalls (b.environment e) rest
          = offerAll b ([e.visual, e.editor] ++ offeredCandidates rest)
      rw [offerAll_append]
      exact ih (b.environment e)

/-- Folding Option.or from a selected value never changes it. -/
theorem foldl_or_some (l : List (Option String)) (v : String) :
    l.foldl Option.or (some v) = some v := by
  induction l with
  | nil => rfl
  | cons c rest ih => simpa [Option.or] using ih

/-- Folding Option.or over all-absent candidates stays unselected. -/
theorem foldl_or_none (l : List (Option String)) (h : ∀ c ∈ l, c = none) :
    l.foldl Option.or none = none := by
  induction l with
  | nil => rfl
  | cons c rest ih =>
    have hc : c = none := h c (List.mem_cons_self c rest)
    subst hc
    exact ih fun c hc => h c (List.mem_cons_of_mem _ hc)

/-- The first present candidate is the selected one: with all candidates
before position i absent and candidate i present with value v, the fold
selects v. -/
theorem foldl_or_split (pre post : List (Option String)) (v : String)
    (hpre : ∀ c ∈ pre, c = none) :
    (pre ++ some v :: post).foldl Option.or (none : Option String) = some v := by
  rw [List.foldl_append, foldl_or_none pre hpre]
  show post.foldl Option.or (Option.or none (some v)) = some v
  exact foldl_or_some post v

/-- build depends only on the fields of the builder. -/
theorem build_congr (b₁ b₂ : EditorBuilder) (amb : Env) (hc : b₁.command = b₂.command)
    (hp : b₁.paths = b₂.paths) : b₁.build amb = b₂.build amb := by
  rw [EditorBuilder.ext_eq b₁ b₂ hc hp]

/-- Registering a list of paths by folding path() appends them in order. -/
theorem foldl_path_paths (ps : List String) (b : EditorBuilder) :
    (ps.foldl EditorBuilder.path b).paths = b.paths ++ ps := by
  induction ps generalizing b with
  | nil => simp
  | cons p rest ih =>
    show (rest.foldl EditorBuilder.path (b.path p)).paths = b.paths ++ p :: rest
    rw [ih (b.path p)]
    show (b.paths ++ [p]) ++ rest = b.paths ++ p :: rest
    simp

/-- Registering paths never touches the selected command. -/
theorem foldl_path_command (ps : List String) (b : EditorBuilder) :
    (ps.foldl EditorBuilder.path b).command = b.command := by
  induction ps generalizing b with
  | nil => rfl
  | cons p rest ih => exact ih (b.path p)

/-- Normal form of a builder that selected cmd first and then registered the
paths ps. -/
theorem source_then_paths (cmd : String) (ps : List String) :
    ps.foldl EditorBuilder.path (EditorBuilder.new.source (some cmd))
      = { command := some cmd, paths := ps } := by
  refine EditorBuilder.ext_eq _ _ ?_ ?_
  · rw [foldl_path_command]
    rfl
  · rw [foldl_path_paths]
    rfl

/-- A builder holding command cmd with paths ps, when cmd tokenizes to a
nonempty token list, builds the invocation with the first token as program
and the remaining tokens followed by ps as arguments. -/
theorem build_parse_ok (cmd prog : String) (rest ps : List String) (amb : Env)
    (h : shellishParse cmd = .ok (prog :: rest)) :
    (ps.foldl EditorBuilder.path (EditorBuilder.new.source (some cmd))).build amb
      = .ok { program := prog, args := rest ++ ps } := by
  rw [source_then_paths]
  simp [EditorBuilder.build, h]

/-- Folding Option.or stays unselected exactly when every candidate is
absent. -/
theorem foldl_or_none_iff (l : List (Option String)) :
    l.foldl Option.or none = none ↔ ∀ c ∈ l, c = none := by
  induction l with
  | nil => simp
  | cons c rest ih =>
    cases c with
    | none =>
      simpa using ih
    | some v =>
      simp [foldl_or_some]

/-- build yields NoCommand exactly when no command was selected. -/
theorem build_noCommand_iff (b : EditorBuilder) (amb : Env) :
    b.build amb = .error .noCommand ↔ b.command = none := by
  obtain ⟨cmd, ps⟩ := b
  cases cmd with
  | none => simp [EditorBuilder.build]
  | some s =>
    simp only [EditorBuilder.build]
    cases hp : shellishParse s with
    | error e => simp [hp]
    | ok toks => cases toks <;> simp [hp]

/-- The command string of the spec's quoting scenario 6:
ned, a single-quoted group containing a double quote, and a double-quoted
group containing a single quote. -/
def quoteDemoCommand : String :=
  "ned " ++ String.singleton squoteChar ++ "--single \" quotes" ++ String.singleton squoteChar
    ++ " \"--double " ++ String.singleton squoteChar ++ " quotes\""

/-- Claim C1: for every ordered sequence of source offers (via source() and
environment()), if offer i is the first one whose candidate is present (all
candidates before it are absent), then build() parses exactly source i's
string: the result equals the build of a builder holding exactly that string,
so it is unaffected by the absent offers before i and by any offers after
i. -/
theorem c1_first_present_offer_wins (calls : List (OfferCall × Env))
    (pre post : List (Option String)) (v : String) (ps : List String) (amb : Env)
    (hsplit : offeredCandidates calls = pre ++ some v :: post)
    (hpre : ∀ c ∈ pre, c = none) :
    (runCalls { command := none, paths := ps } calls).build amb
      = EditorBuilder.build { command := some v, paths := ps } amb := by
  refine build_congr _ _ amb ?_ ?_
  · rw [runCalls_eq_offerAll, offerAll_command, hsplit]
    exact foldl_or_split pre post v hpre
  · rw [runCalls_eq_offerAll, offerAll_paths]

/-- Witness for C1: among the offers absent, absent-VISUAL, EDITOR=emacs,
vi, the first present candidate is emacs and the build equals the build from
emacs alone. -/
theorem c1_witness :
    (runCalls { command := none, paths := ["f.txt"] }
        [(OfferCall.src none, { visual := none, editor := none }),
         (OfferCall.env, { visual := none, editor := some "emacs" }),
         (OfferCall.src (some "vi"), { visual := none, editor := none })]).build
        { visual := none, editor := none }
      = EditorBuilder.build { command := some "emacs", paths := ["f.txt"] }
          { visual := none, editor := none } :=
  c1_first_present_offer_wins _ [none, none] [some "vi"] "emacs" ["f.txt"] _ rfl (by simp)

/-- Claim C2: if the first present offered candidate is the empty string and
a later offer has a non-empty value, the empty string is still selected at
registration time, and build() fails with EmptyCommand rather than producing
an invocation from the later source. -/
theorem c2_empty_wins_then_fails (calls : List (OfferCall × Env))
    (pre post : List (Option String)) (ps : List String) (amb : Env)
    (hsplit : offeredCandidates calls = pre ++ some "" :: post)
    (hpre : ∀ c ∈ pre, c = none)
    (_hlater : ∃ w, some w ∈ post ∧ w ≠ "") :
    (runCalls { command := none, paths := ps } calls).command = some ""
      ∧ (runCalls { command := none, paths := ps } calls).build amb
        = .error .emptyCommand := by
  have hcmd : (runCalls { command := none, paths := ps } calls).command = some "" := by
    rw [runCalls_eq_offerAll, offerAll_command, hsplit]
    exact foldl_or_split pre post "" hpre
  have hps : (runCalls { command := none, paths := ps } calls).paths = ps := by
    rw [runCalls_eq_offerAll, offerAll_paths]
  refine ⟨hcmd, ?_⟩
  rw [build_congr _ { command := some "", paths := ps } amb hcmd hps]
  rfl

/-- Witness for C2: offers absent, empty string, vi: the empty string is
selected and build fails with EmptyCommand. -/
theorem c2_witness :
    (runCalls { command := none, paths := [] }
        [(OfferCall.src none, { visual := none, editor := none }),
         (OfferCall.src (some ""), { visual := none, editor := none }),
         (OfferCall.src (some "vi"), { visual := none, editor := none })]).command = some ""
      ∧ (runCalls { command := none, paths := [] }
          [(OfferCall.src none, { visual := none, editor := none }),
           (OfferCall.src (some ""), { visual := none, editor := none }),
           (OfferCall.src (some "vi"), { visual := none, editor := none })]).build
          { visual := none, editor := none }
        = .error .emptyCommand :=
  c2_empty_wins_then_fails _ [none] [some "vi"] [] _ rfl (by simp)
    ⟨"vi", by simp, by decide⟩

/-- Claim C3: build() fails with NoCommand exactly when every offered
candidate was absent; in particular a fresh builder with no offers at all
fails with NoCommand. -/
theorem c3_noCommand_iff_all_absent (calls : List (OfferCall × Env)) (ps : List String)
    (amb : Env) :
    ((runCalls { command := none, paths := ps } calls).build amb = .error .noCommand
      ↔ ∀ c ∈ offeredCandidates calls, c = none)
    ∧ EditorBuilder.new.build amb = .error .noCommand := by
  constructor
  · rw [build_noCommand_iff, runCalls_eq_offerAll, offerAll_command]
    exact foldl_or_none_iff _
  · rfl

/-- Claim C4: when the selected command string tokenizes into at least one
token, build() returns an invocation whose program is the first token and
whose arguments are exactly the remaining tokens in order followed by the
registered paths in registration order, unmodified. -/
theorem c4_program_args_paths (cmd prog : String) (rest ps : List String) (amb : Env)
    (hparse : shellishParse cmd = .ok (prog :: rest)) :
    (ps.foldl EditorBuilder.path (EditorBuilder.new.source (some cmd))).build amb
      = .ok { program := prog, args := rest ++ ps } :=
  build_parse_ok cmd prog rest ps amb hparse

/-- Witness for C4: the command vi -e with paths a, b builds program vi with
arguments -e, a, b. -/
theorem c4_witness :
    shellishParse "vi -e" = .ok ["vi", "-e"]
      ∧ (["a", "b"].foldl EditorBuilder.path (EditorBuilder.new.source (some "vi -e"))).build
          { visual := none, editor := none }
        = .ok { program := "vi", args := ["-e", "a", "b"] } :=
  ⟨rfl, c4_program_args_paths "vi -e" "vi" ["-e"] ["a", "b"]
    { visual := none, editor := none } rfl⟩

/-- Claim C5: when the tokenizer rejects the selected command string, build()
fails with ParseError wrapping the tokenizer's diagnostic, and the displayed
message contains the wrapped diagnostic's own message text. -/
theorem c5_parse_error_wraps_cause (cmd : String) (e : ShellishParseError) (ps : List String)
    (amb : Env) (hparse : shellishParse cmd = .error e) :
    (ps.foldl EditorBuilder.path (EditorBuilder.new.source (some cmd))).build amb
      = .error (.parseError e)
    ∧ ∃ pre post, (EditorBuilderError.parseError e).display = pre ++ e.message ++ post := by
  constructor
  · rw [source_then_paths]
    simp [EditorBuilder.build, hparse]
  · exact ⟨"Invalid editor command: ", "", by cases e; decide⟩

/-- Witness for C5: an unterminated single quote makes the tokenizer fail
with the dangling-string diagnostic, build fails with ParseError wrapping it,
and the displayed message contains "dangling string". -/
theorem c5_witness :
    shellishParse (String.singleton squoteChar ++ "unclosed quote") = .error .danglingString
      ∧ (([] : List String).foldl EditorBuilder.path
            (EditorBuilder.new.source
              (some (String.singleton squoteChar ++ "unclosed quote")))).build
          { visual := none, editor := none }
        = .error (.parseError .danglingString)
      ∧ ∃ pre post, (EditorBuilderError.parseError .danglingString).display
          = pre ++ ShellishParseError.message .danglingString ++ post :=
  ⟨rfl, c5_parse_error_wraps_cause (String.singleton squoteChar ++ "unclosed quote")
    .danglingString [] { visual := none, editor := none } rfl⟩

/-- Claim C6: the environment is snapshotted when environment() runs: after
environment() has been called with the environment then in effect, the
ambient environment at build time (VISUAL and EDITOR included) has no effect
on the result of build(). -/
theorem c6_environment_snapshot (b : EditorBuilder) (env amb₁ amb₂ : Env) :
    (b.environment env).build amb₁ = (b.environment env).build amb₂ := rfl

/-- Claim C7: environment() offers VISUAL then EDITOR, in that order, under
the same first-write-wins semantics as source(): it equals two source()
calls, on a fresh builder it selects VISUAL when present and otherwise
EDITOR, and with VISUAL=vim, EDITOR=emacs and path file.txt the build yields
program vim with argument file.txt. -/
theorem c7_environment_offers_visual_then_editor (b : EditorBuilder) (env amb : Env) :
    b.environment env = (b.source env.visual).source env.editor
      ∧ (EditorBuilder.new.environment env).command = env.visual.or env.editor
      ∧ ((EditorBuilder.new.environment
            { visual := some "vim", editor := some "emacs" }).path "file.txt").build amb
        = .ok { program := "vim", args := ["file.txt"] } := by
  refine ⟨rfl, ?_, rfl⟩
  show Option.or (Option.or none env.visual) env.editor = env.visual.or env.editor
  rw [Option.none_or]

/-- Claim C8: shell-like quoting in tokenization: for the command string
ned followed by a single-quoted group containing a double quote and a
double-quoted group containing a single quote, build yields program ned and
exactly those two groups as arguments (each one token, whitespace and the
other quote character kept literally), followed by the registered paths. -/
theorem c8_quote_tokenization (ps : List String) (amb : Env) :
    (ps.foldl EditorBuilder.path (EditorBuilder.new.source (some quoteDemoCommand))).build amb
      = .ok { program := "ned",
              args := ["--single \" quotes",
                       "--double " ++ String.singleton squoteChar ++ " quotes"] ++ ps } :=
  build_parse_ok quoteDemoCommand "ned"
    ["--single \" quotes", "--double " ++ String.singleton squoteChar ++ " quotes"]
    ps amb rfl

/-- Claim C9: frame property: source() and environment() leave the registered
path list unchanged, and path() leaves the selected command unchanged. -/
theorem c9_frame (b : EditorBuilder) (s : Option String) (env : Env) (p : String) :
    (b.source s).paths = b.paths
      ∧ (b.environment env).paths = b.paths
      ∧ (b.path p).command = b.command :=
  ⟨rfl, rfl, rfl⟩

/-- Claim C10: edit_file(p) returns exactly the same result as
new().environment().path(p).build(), for every path and every environment
state. -/
theorem c10_edit_file_equiv (env : Env) (p : String) (amb : Env) :
    EditorBuilder.edit_file env p amb
      = ((EditorBuilder.new.environment env).path p).build amb := rfl

end EditorCommand
